import Mathlib

/-!
# Smart Task Management — scheduling/consistency engine, verified embedding

A shallow embedding of the task scheduling engine of the
smart-task-management repository (backend `TaskService`, `ReminderService`
and `WorkloadService`).  Timestamps are modelled as `Int` milliseconds
since the Unix epoch (the source stores and compares UTC `Date` values);
fractional hour amounts are modelled as `ℚ` (the source uses JS numbers;
every computation proved about here is exact in the source as well).
-/

namespace SmartTask

/-- Milliseconds in one hour (`1000 * 60 * 60` in the source). -/
def msPerHour : Int := 3600000

/-- Milliseconds in one calendar day (`24 * 60 * 60 * 1000` in the source). -/
def msPerDay : Int := 86400000

/-- `TaskType` from the contracts package: `REMINDER` is a point-in-time
task, `DURATION` has a start and a deadline. -/
inductive TaskType where
  | reminder
  | duration
deriving DecidableEq, Repr

/-- `TaskStatus` from the contracts package. -/
inductive TaskStatus where
  | pending
  | inProgress
  | completed
deriving DecidableEq, Repr

/-- `Priority` from the contracts package. -/
inductive Priority where
  | low
  | medium
  | high
deriving DecidableEq, Repr

/-- The time-relevant projection of a task handed to `detectConflict` /
`checkConflicts` / `findFreeTimeSlots`: `{ startDateTime, deadline?, type }`. -/
structure TimeSlot where
  startDateTime : Int
  deadline : Option Int
  type : TaskType
deriving DecidableEq, Repr

/-- The source's interval normalization: `end = deadline ? deadline : start`. -/
def endOf (t : TimeSlot) : Int := t.deadline.getD t.startDateTime

/-- `TaskService.detectConflict` (task.service.ts): pairwise time conflict
between two tasks, by type pair. -/
def detectConflict (t1 t2 : TimeSlot) : Bool :=
  let start1 := t1.startDateTime
  let end1 := endOf t1
  let start2 := t2.startDateTime
  let end2 := endOf t2
  match t1.type, t2.type with
  | .reminder, .reminder => start1 == start2
  | .reminder, .duration => start1 ≥ start2 && start1 ≤ end2
  | .duration, .reminder => start2 ≥ start1 && start2 ≤ end1
  | .duration, .duration => start1 < end2 && end1 > start2

/-- Well-formedness of a slot, per the spec's data-model invariant:
a `Span`/duration task has a deadline, an `Instant`/reminder task has none. -/
def wfSlot (t : TimeSlot) : Prop := t.type = .duration ↔ t.deadline.isSome

instance (t : TimeSlot) : Decidable (wfSlot t) := by
  unfold wfSlot; infer_instance

/-- The spec's pairwise conflict rules (§4.1), written from the spec's words,
over intervals `[s, e]` with `e = deadline` for Span and `e = s` for Instant:
Instant–Instant conflict iff `s1 = s2`; Instant–Span iff the instant lies in
`[s2, e2]` inclusive; Span–Span iff `s1 < e2 ∧ e1 > s2`. -/
def specConflict (t1 t2 : TimeSlot) : Prop :=
  let s1 := t1.startDateTime
  let e1 := if t1.type = .duration then t1.deadline.getD s1 else s1
  let s2 := t2.startDateTime
  let e2 := if t2.type = .duration then t2.deadline.getD s2 else s2
  match t1.type, t2.type with
  | .reminder, .reminder => s1 = s2
  | .reminder, .duration => s2 ≤ s1 ∧ s1 ≤ e2
  | .duration, .reminder => s1 ≤ s2 ∧ s2 ≤ e1
  | .duration, .duration => s1 < e2 ∧ e1 > s2

end SmartTask

namespace SmartTask

/-- **C1.** For every pair of well-formed tasks (deadline present iff Span),
`detectConflict` reports a conflict exactly under the spec's pairwise rules,
and two Span tasks that merely touch at an endpoint (`e1 = s2` or `e2 = s1`)
never conflict. -/
theorem detectConflict_matches_spec (t1 t2 : TimeSlot)
    (h1 : wfSlot t1) (h2 : wfSlot t2) :
    (detectConflict t1 t2 = true ↔ specConflict t1 t2) ∧
    (t1.type = .duration → t2.type = .duration →
      endOf t1 = t2.startDateTime ∨ endOf t2 = t1.startDateTime →
      detectConflict t1 t2 = false) := by
  constructor
  · unfold detectConflict specConflict endOf
    rcases ht1 : t1.type <;> rcases ht2 : t2.type <;>
      simp [ht1, ht2] <;> omega
  · intro hd1 hd2 htouch
    unfold detectConflict endOf at *
    rcases htouch with h | h <;> simp [hd1, hd2] <;> omega


/-! ## Daily Hour-Limit Guard and task creation (`checkDailyHourLimit`, `createTask`) -/

/-- A stored task as seen by the create/update validation queries:
time slot plus completion status. -/
structure StoredTask where
  startDateTime : Int
  deadline : Option Int
  type : TaskType
  status : Option TaskStatus
deriving DecidableEq, Repr

/-- The slot projection of a stored task. -/
def StoredTask.slot (t : StoredTask) : TimeSlot :=
  ⟨t.startDateTime, t.deadline, t.type⟩

/-- `TaskService.checkConflicts`: the candidate is tested against the owner's
active tasks — reminder tasks, and duration tasks that are not completed
(the query's `$or`); `hasConflict` is true when any pairwise conflict exists. -/
def checkConflicts (existing : List StoredTask) (candidate : TimeSlot) : Bool :=
  let active := existing.filter fun t =>
    t.type == .reminder || (t.type == .duration && t.status != some .completed)
  active.any fun t => detectConflict candidate t.slot

/-- Calendar day index of a timestamp (the source groups by the local
`YYYY-MM-DD` string via midnight truncation; in the UTC model this is the
floor of the timestamp over one day). -/
def dayIndex (t : Int) : Int := t.fdiv msPerDay

/-- Hours a task `[s, e]` contributes to calendar day `d` (`addTaskHours` in
`checkDailyHourLimit` and the identical loop in `WorkloadService`):
`min(e, dayEnd) - max(s, dayStart)` milliseconds, where `dayEnd` is
`23:59:59.999` of the day, converted to hours. -/
def hoursOnDay (s e d : Int) : ℚ :=
  ((min e (d * msPerDay + msPerDay - 1) - max s (d * msPerDay) : Int) : ℚ) /
    (msPerHour : ℚ)

/-- Per-day hour fragments of a task `[s, e]`: one `(day, hours)` pair for each
calendar day from the day of `s` to the day of `e`, keeping only strictly
positive contributions (the `hoursOnThisDay > 0` guard). -/
def fragments (s e : Int) : List (Int × ℚ) :=
  ((List.range ((dayIndex e - dayIndex s + 1).toNat)).map
    (fun k => dayIndex s + (k : Int))).filterMap
    (fun d => let h := hoursOnDay s e d; if 0 < h then some (d, h) else none)

/-- Insert-or-add into an insertion-ordered association list, matching the
JS `Map.set(key, get(key) + h)` update (insertion order preserved). -/
def insertAdd : List (Int × ℚ) → Int → ℚ → List (Int × ℚ)
  | [], d, h => [(d, h)]
  | (d', h') :: rest, d, h =>
    if d' = d then (d', h' + h) :: rest else (d', h') :: insertAdd rest d h

/-- The `dailyHours` map of `checkDailyHourLimit`: fold every task's fragments
(existing duration tasks first, then the candidate) into the map. -/
def dailyHoursMap (tasks : List (Int × Int)) : List (Int × ℚ) :=
  tasks.foldl (fun m te => (fragments te.1 te.2).foldl
    (fun m' dh => insertAdd m' dh.1 dh.2) m) []

/-- The max-tracking loop of `checkDailyHourLimit`: starting from
`maxHours = 0`, keep the first entry strictly greater than the running max. -/
def maxDailyEntry (m : List (Int × ℚ)) : Option Int × ℚ :=
  m.foldl (fun acc dh => if dh.2 > acc.2 then (some dh.1, dh.2) else acc)
    (none, 0)

/-- `TaskService.checkDailyHourLimit`: `none` when the candidate is not a
duration task with a deadline or no day exceeds 24 hours; otherwise the
offending day and its computed total.  Existing duration tasks of every
status are counted (the source includes completed ones deliberately). -/
def checkDailyHourLimit (existing : List StoredTask) (s : Int)
    (dl : Option Int) (ty : TaskType) : Option (Int × ℚ) :=
  match ty, dl with
  | .duration, some e =>
    let durTasks := existing.filter fun t => t.type == .duration
    let m := dailyHoursMap
      ((durTasks.map fun t => (t.startDateTime, t.deadline.getD t.startDateTime)) ++
        [(s, e)])
    let me := maxDailyEntry m
    if me.2 > 24 then some (me.1.getD 0, me.2) else none
  | _, _ => none

/-! ## Task entity, recurrence pattern, reminder scheduler -/

/-- `RecurrenceFrequency` from the contracts package. -/
inductive RecurrenceFrequency where
  | daily
  | weekly
  | monthly
  | yearly
deriving DecidableEq, Repr

/-- `RecurrencePattern` from the contracts package / mongoose schema. -/
structure RecurrencePattern where
  frequency : RecurrenceFrequency
  interval : Int
  endDate : Option Int
  occurrences : Option Int
  daysOfWeek : Option (List Int)
  dayOfMonth : Option Int
deriving DecidableEq, Repr

/-- The task document (`task.model.ts`), restricted to the fields the engine
reads.  `status` is optional in the schema (Instant tasks may carry none). -/
structure Task where
  id : Nat
  startDateTime : Int
  deadline : Option Int
  type : TaskType
  status : Option TaskStatus
  priority : Priority
  reminderEnabled : Bool
  remindersSent : List Int
  isRecurring : Bool
  recurrencePattern : Option RecurrencePattern
  parentTaskId : Option Nat
  createdAt : Int
deriving DecidableEq, Repr

/-- The quarter cascade shared verbatim by both branches of
`ReminderService.calculateReminderQuarter`: reference time is the start
(Reminder) or the deadline (Duration).  When `refTime = createdTime` the
JS division yields `Infinity` (with `timeUntil > 0`), which lands in the
`> 75` branch and returns 100; that case is made explicit here. -/
def quarterFor (refTime createdTime now : Int) : Option Int :=
  let timeUntil := refTime - now
  if timeUntil ≤ 0 then some 0
  else if refTime - createdTime = 0 then some 100
  else
    let percentRemaining : ℚ :=
      ((timeUntil : ℚ) / ((refTime - createdTime : Int) : ℚ)) * 100
    if percentRemaining ≤ 25 ∧ percentRemaining > 0 then some 25
    else if percentRemaining ≤ 50 ∧ percentRemaining > 25 then some 50
    else if percentRemaining ≤ 75 ∧ percentRemaining > 50 then some 75
    else if percentRemaining > 75 then some 100
    else none

/-- `ReminderService.calculateReminderQuarter`.  A Duration task without a
deadline makes every JS comparison `NaN`-false and falls through to `null`. -/
def calculateReminderQuarter (task : Task) (now : Int) : Option Int :=
  match task.type with
  | .reminder => quarterFor task.startDateTime task.createdAt now
  | .duration =>
    match task.deadline with
    | some dl => quarterFor dl task.createdAt now
    | none => none

/-- One task's step of `ReminderService.processReminders`: if a quarter is
due and not in `remindersSent`, the reminder fires (first component) and the
quarter is `$addToSet`-ed; otherwise nothing changes. -/
def processReminderStep (task : Task) (now : Int) : Option Int × List Int :=
  match calculateReminderQuarter task now with
  | some q =>
    if q ∈ task.remindersSent then (none, task.remindersSent)
    else (some q, task.remindersSent ++ [q])
  | none => (none, task.remindersSent)

/-- The reference time of a task for reminders: start for Instant,
deadline for Span. -/
def referenceTime (task : Task) : Option Int :=
  match task.type with
  | .reminder => some task.startDateTime
  | .duration => task.deadline

/-! ## Recurrence engine (`calculateNextOccurrence`) and recurring completion

JS `Date` setters (`setDate`, `setMonth`, `setFullYear`) operate on the
calendar decomposition of the timestamp and renormalize overflow.  The spec
fixes all times to UTC, so a day is uniformly `msPerDay` long and
`setDate(getDate() + k)` adds exactly `k * msPerDay`; month and year
arithmetic go through a civil-calendar decomposition (standard
days-from-civil / civil-from-days algorithms) with JS rollover semantics. -/

/-- Proleptic-Gregorian `(year, month, day)` of a day number
(days since 1970-01-01). -/
def civilFromDays (z0 : Int) : Int × Int × Int :=
  let z := z0 + 719468
  let era := z.fdiv 146097
  let doe := z - era * 146097
  let yoe := (doe - doe.ediv 1460 + doe.ediv 36524 - doe.ediv 146096).ediv 365
  let y := yoe + era * 400
  let doy := doe - (365 * yoe + yoe.ediv 4 - yoe.ediv 100)
  let mp := (5 * doy + 2).ediv 153
  let d := doy - (153 * mp + 2).ediv 5 + 1
  let m := if mp < 10 then mp + 3 else mp - 9
  (if m ≤ 2 then y + 1 else y, m, d)

/-- Day number of a civil date with `m ∈ [1,12]`; affine in `d`, so any
day-of-month value (0, negative, or past the month's length) rolls over
exactly as JS `Date` normalization does. -/
def daysFromCivil (y0 m d : Int) : Int :=
  let y := if m ≤ 2 then y0 - 1 else y0
  let era := y.fdiv 400
  let yoe := y - era * 400
  let mp := (m + 9).emod 12
  let doy := (153 * mp + 2).ediv 5 + d - 1
  let doe := yoe * 365 + yoe.ediv 4 - yoe.ediv 100 + doy
  era * 146097 + doe - 719468

/-- `daysFromCivil` after normalizing an arbitrary month number into
`[1,12]` (JS `setMonth` accepts any integer and rolls the year). -/
def daysFromCivilRoll (y m d : Int) : Int :=
  daysFromCivil (y + (m - 1).fdiv 12) ((m - 1).fmod 12 + 1) 1 + (d - 1)

/-- JS `date.setMonth(date.getMonth() + k)` on a UTC millisecond timestamp. -/
def setMonthAdd (t k : Int) : Int :=
  let c := civilFromDays (t.fdiv msPerDay)
  daysFromCivilRoll c.1 (c.2.1 + k) c.2.2 * msPerDay + t.fmod msPerDay

/-- JS `date.setDate(dom)`: pin the day-of-month, with rollover. -/
def setDayOfMonth (t dom : Int) : Int :=
  let c := civilFromDays (t.fdiv msPerDay)
  daysFromCivilRoll c.1 c.2.1 dom * msPerDay + t.fmod msPerDay

/-- JS `date.setFullYear(date.getFullYear() + k)`. -/
def setYearAdd (t k : Int) : Int :=
  let c := civilFromDays (t.fdiv msPerDay)
  daysFromCivilRoll (c.1 + k) c.2.1 c.2.2 * msPerDay + t.fmod msPerDay

/-- JS `date.getDay()`: weekday index, 0 = Sunday (1970-01-01 was a
Thursday, index 4). -/
def weekday (t : Int) : Int := (t.fdiv msPerDay + 4).emod 7

/-- Ascending insertion used to model `[...daysOfWeek].sort((a,b) => a-b)`. -/
def insertSorted (x : Int) : List Int → List Int
  | [] => [x]
  | y :: ys => if x ≤ y then x :: y :: ys else y :: insertSorted x ys

/-- `Array.prototype.sort` with the numeric ascending comparator. -/
def sortInts (l : List Int) : List Int := l.foldr insertSorted []

/-- `TaskService.calculateNextOccurrence(currentDate, pattern)`.  The
`default: return null` branch of the source `switch` is unreachable here
because `RecurrenceFrequency` is a closed enum. -/
def calculateNextOccurrence (currentDate : Int) (pattern : RecurrencePattern) :
    Option Int :=
  match pattern.frequency with
  | .daily => some (currentDate + pattern.interval * msPerDay)
  | .weekly =>
    match pattern.daysOfWeek with
    | some ds =>
      if ds.length > 0 then
        let currentDay := weekday currentDate
        let sortedDays := sortInts ds
        match sortedDays.find? (fun day => day > currentDay) with
        | some day => some (currentDate + (day - currentDay) * msPerDay)
        | none =>
          some (currentDate +
            ((7 - currentDay + sortedDays.headD 0) * pattern.interval) * msPerDay)
      else some (currentDate + (7 * pattern.interval) * msPerDay)
    | none => some (currentDate + (7 * pattern.interval) * msPerDay)
  | .monthly =>
    match pattern.dayOfMonth with
    | some dom =>
      some (setDayOfMonth (setMonthAdd currentDate pattern.interval) dom)
    | none => some (setMonthAdd currentDate pattern.interval)
  | .yearly => some (setYearAdd currentDate pattern.interval)

/-- `UpdateTaskDto`, restricted to the fields the modelled mutation reads. -/
structure UpdateTaskDto where
  priority : Option Priority
  startDateTime : Option Int
  deadline : Option Int
  status : Option TaskStatus
  reminderEnabled : Option Bool
deriving DecidableEq, Repr

/-- The field-update section of `updateTask` (each `if (data.x !== undefined)`
assignment, in source order). -/
def applyFieldUpdates (task : Task) (data : UpdateTaskDto) : Task :=
  let t1 := match data.priority with
    | some p => { task with priority := p } | none => task
  let t2 := match data.startDateTime with
    | some s => { t1 with startDateTime := s } | none => t1
  let t3 := match data.deadline with
    | some dl => { t2 with deadline := some dl } | none => t2
  match data.reminderEnabled with
    | some r => { t3 with reminderEnabled := r } | none => t3

/-- Terminate a recurring series: `status = Completed`, reminders off. -/
def terminateSeries (task : Task) : Task :=
  { task with status := some .completed, reminderEnabled := false }

/-- Advance a recurring task to its next occurrence `next`: move `start`;
if the task is a Span with a deadline, shift the deadline by the original
start→deadline offset; reset `status = Pending`; clear `remindersSent`. -/
def advanceOccurrence (task : Task) (next : Int) : Task :=
  let t1 : Task := { task with startDateTime := next }
  let t2 : Task :=
    match task.deadline with
    | some dl =>
      if task.type = TaskType.duration then
        { t1 with deadline := some (next + (dl - task.startDateTime)) }
      else t1
    | none => t1
  { t2 with status := some .pending, remindersSent := [] }

/-- The recurring-completion block of `updateTask` (entered when the update
sets `status = Completed` on a recurring task with a pattern):
occurrence-based series decrement and advance, or terminate at the last
occurrence; date-based/infinite series advance unless the next occurrence
exceeds `endDate`. -/
def completeRecurring (task : Task) (p : RecurrencePattern) : Task :=
  match p.occurrences with
  | some occ =>
    if occ ≤ 1 then terminateSeries task
    else
      let p' : RecurrencePattern := { p with occurrences := some (occ - 1) }
      match calculateNextOccurrence task.startDateTime p' with
      | some next =>
        advanceOccurrence { task with recurrencePattern := some p' } next
      | none => terminateSeries { task with recurrencePattern := some p' }
  | none =>
    match calculateNextOccurrence task.startDateTime p with
    | some next =>
      match p.endDate with
      | some ed =>
        if next > ed then terminateSeries task
        else advanceOccurrence task next
      | none => advanceOccurrence task next
    | none => terminateSeries task

/-- The mutation applied by `updateTask` once all validations pass: field
updates, then the status-change handling (recurring completion, or plain
status assignment with reminders stopped on completion). -/
def updateTaskApply (task : Task) (data : UpdateTaskDto) : Task :=
  let t := applyFieldUpdates task data
  match data.status with
  | none => t
  | some st =>
    if st = .completed then
      if t.isRecurring then
        match t.recurrencePattern with
        | some p => completeRecurring t p
        | none => { t with status := some .completed, reminderEnabled := false }
      else { t with status := some .completed, reminderEnabled := false }
    else { t with status := some st }

/-- The plain "mark the current occurrence completed" request: an update
whose only field is `status = Completed`. -/
def completeRequest : UpdateTaskDto := ⟨none, none, none, some .completed, none⟩

/-! ## Workload aggregator (`WorkloadService.calculateWorkload`) -/

/-- The fill-and-cap loop of `calculateWorkload`, at the level of daily
totals (the proportional fragment redistribution never feeds back into the
totals): walk the days left to right; add any positive carry-over into the
day; if the result exceeds 24 hours, emit exactly 24 and carry the excess;
otherwise emit the total and carry nothing.  Returns the emitted daily
totals and the carry remaining after `rangeEnd`. -/
def capCarryAux : List ℚ → ℚ → List ℚ × ℚ
  | [], carry => ([], carry)
  | d :: rest, carry =>
    let total := if carry > 0 then d + carry else d
    if total > 24 then
      let out := capCarryAux rest (total - 24)
      (24 :: out.1, out.2)
    else
      let out := capCarryAux rest 0
      (total :: out.1, out.2)

/-- The trailing `while (carryOverHours > 0)` loop: append synthetic extra
days of `min(carry, 24)` hours until the carry is exhausted.  The source
loop terminates because the carry drops by 24 per iteration; here it runs
on fuel, which the caller sizes as `⌈carry / 24⌉`. -/
def extraDays : Nat → ℚ → List ℚ
  | 0, _ => []
  | n + 1, carry =>
    if carry > 0 then min carry 24 :: extraDays n (carry - min carry 24)
    else []

/-- The calendar days enumerated by the fill loop: starting at `startDate`
and stepping one day at a time while `currentDate ≤ endDate`, keyed by the
date of the running timestamp. -/
def rangeDays (startDate endDate : Int) : List Int :=
  (List.range ((endDate - startDate).fdiv msPerDay + 1).toNat).map
    fun k => dayIndex (startDate + (k : Int) * msPerDay)

/-- `WorkloadService.calculateWorkload`, projected to the daily totals of
the returned `dailyWorkloads` (task-fragment day splitting exactly as in
`fragments`; missing dates fill in as zero; then the 24-hour
cap-with-carry-over pass and the synthetic extra days). -/
def calculateWorkload (tasks : List (Int × Int)) (startDate endDate : Int) :
    List ℚ :=
  let allFrags := tasks.flatMap fun te => fragments te.1 te.2
  let base := (rangeDays startDate endDate).map fun d =>
    (((allFrags.filter fun dh => dh.1 == d).map fun dh => dh.2).sum)
  let out := capCarryAux base 0
  out.1 ++ extraDays (Int.toNat ⌈out.2 / 24⌉) out.2

/-! ## Free-slot finder (`TaskService.findFreeTimeSlots`) -/

/-- Stable ascending insertion on interval start, modelling
`.sort((a, b) => a.start - b.start)`. -/
def insertBlock (b : Int × Int) : List (Int × Int) → List (Int × Int)
  | [] => [b]
  | c :: rest => if b.1 ≤ c.1 then b :: c :: rest else c :: insertBlock b rest

/-- Sort busy blocks by start ascending. -/
def sortBlocks (l : List (Int × Int)) : List (Int × Int) :=
  l.foldr insertBlock []

/-- The gap-scanning loop of `findFreeTimeSlots`: for each busy block, if
the gap between the cursor and the block's start fits the duration, emit
`[cursor, cursor + duration]`; break as soon as 3 suggestions exist
(before the cursor advances, as in the source); otherwise advance the
cursor to `max(cursor, block.end)`.  Returns the suggestions and the final
cursor. -/
def gapLoop (dur : Int) : List (Int × Int) → Int → List (Int × Int) →
    List (Int × Int) × Int
  | [], cur, acc => (acc, cur)
  | b :: rest, cur, acc =>
    if b.1 - cur ≥ dur then
      let acc2 := acc ++ [(cur, cur + dur)]
      if acc2.length ≥ 3 then (acc2, cur)
      else gapLoop dur rest (max cur b.2) acc2
    else gapLoop dur rest (max cur b.2) acc

/-- `TaskService.findFreeTimeSlots(existingTasks, taskDuration,
originalStart)`: anchor at `max(originalStart, now)`, horizon 7 days out;
scan gaps; then, if fewer than 3 suggestions and the cursor is inside the
horizon, emit one trailing suggestion provided it ends within the horizon;
if still no suggestions at all, fall back to one right after the last busy
block. -/
def findFreeTimeSlots (existingTasks : List TimeSlot) (taskDuration : Int)
    (originalStart now : Int) : List (Int × Int) :=
  let searchStart := max originalStart now
  let searchEnd := searchStart + 7 * msPerDay
  let busyBlocks := sortBlocks (existingTasks.map fun t => (t.startDateTime, endOf t))
  let scanned := gapLoop taskDuration busyBlocks searchStart []
  let suggestions := scanned.1
  let currentTime := scanned.2
  let suggestions :=
    if suggestions.length < 3 ∧ currentTime < searchEnd ∧
        currentTime + taskDuration ≤ searchEnd then
      suggestions ++ [(currentTime, currentTime + taskDuration)]
    else suggestions
  if suggestions.length = 0 then
    match busyBlocks.getLast? with
    | some lb => [(lb.2, lb.2 + taskDuration)]
    | none => []
  else suggestions

/-! ## Dynamic priority scorer (`TaskService.calculateDynamicPriority`) -/

/-- Base priority scores: Low = 1, Medium = 2, High = 3. -/
def priorityScores : Priority → Int
  | .low => 1
  | .medium => 2
  | .high => 3

/-- `TaskService.calculateDynamicPriority(task, now)`: base priority × 10,
plus an urgency bonus from hours until the deadline, plus 15 when
In-Progress, all overridden to −1000 when Completed. -/
def calculateDynamicPriority (task : Task) (now : Int) : Int :=
  let base := priorityScores task.priority * 10
  let withUrgency :=
    match task.deadline with
    | some dl =>
      let hoursUntilDeadline : ℚ := ((dl - now : Int) : ℚ) / (msPerHour : ℚ)
      if hoursUntilDeadline < 0 then base + 100
      else if hoursUntilDeadline < 2 then base + 50
      else if hoursUntilDeadline < 6 then base + 30
      else if hoursUntilDeadline < 24 then base + 20
      else if hoursUntilDeadline < 48 then base + 10
      else if hoursUntilDeadline < 168 then base + 5
      else base
    | none => base
  let withProgress :=
    if task.status = some TaskStatus.inProgress then withUrgency + 15
    else withUrgency
  if task.status = some TaskStatus.completed then -1000 else withProgress

/-! ## Subtask graph: cycle check on parent assignment -/

/-- `TaskModel.findOne({ _id: id, userId })` over the owner's store. -/
def findTask (store : List Task) (i : Nat) : Option Task :=
  store.find? fun t => t.id == i

/-- The ancestor walk of `TaskService.isSubtaskOf`: starting from the
candidate parent, follow `parentTaskId` pointers and report whether the
potential child's id appears as one of the *parents* seen along the way.
The source's `while` loop is modelled with fuel; `store.length + 1` steps
suffice on any store whose parent chains are acyclic. -/
def isSubtaskOfAux (store : List Task) (childId : Nat) :
    Option Task → Nat → Bool
  | none, _ => false
  | some _, 0 => false
  | some t, fuel + 1 =>
    match t.parentTaskId with
    | none => false
    | some pid =>
      if pid = childId then true
      else isSubtaskOfAux store childId (findTask store pid) fuel

/-- `TaskService.isSubtaskOf(potentialParentId, potentialChildId)`. -/
def isSubtaskOf (store : List Task) (potentialParentId potentialChildId : Nat) : Bool :=
  isSubtaskOfAux store potentialChildId (findTask store potentialParentId)
    (store.length + 1)

/-- Rejection reasons of the parent-assignment branch of `updateTask`. -/
inductive UpdateError where
  | parentNotFound
  | circular
deriving DecidableEq, Repr

/-- The `data.parentTaskId` branch of `TaskService.updateTask`: the new
parent must exist, and `isSubtaskOf(newParentId, taskId)` must not detect a
circular relationship; then the assignment is applied. -/
def assignParent (store : List Task) (task : Task) (newParentId : Nat) :
    Except UpdateError Task :=
  match findTask store newParentId with
  | none => .error .parentNotFound
  | some _ =>
    if isSubtaskOf store newParentId task.id then .error .circular
    else .ok { task with parentTaskId := some newParentId }

/-- Validation outcome of `createTask` (conflict 409, or the 400
daily-limit `AppError` carrying the offending date and total). -/
inductive CreateError where
  | conflict
  | limitExceeded (day : Int) (hours : ℚ)
deriving DecidableEq

/-- The validation pipeline of `TaskService.createTask`: when
`overrideConflicts` is set, *both* the conflict check and the daily
hour-limit check are skipped (they live inside `if (!data.overrideConflicts)`);
otherwise conflicts are rejected first, then the daily limit. -/
def createTaskCheck (existing : List StoredTask) (s : Int) (dl : Option Int)
    (ty : TaskType) (override : Bool) : Except CreateError Unit :=
  if override then .ok ()
  else if checkConflicts existing ⟨s, dl, ty⟩ then .error .conflict
  else
    match checkDailyHourLimit existing s dl ty with
    | some (d, h) => .error (.limitExceeded d h)
    | none => .ok ()

/-- Witness for C1 at a concrete input: two Instant tasks at the same
millisecond (2025-01-10T14:00:00Z) conflict, via the spec-rule direction of
the theorem; the well-formedness hypotheses are discharged by `decide`. -/
theorem detectConflict_matches_spec_witness :
    detectConflict ⟨1736517600000, none, .reminder⟩ ⟨1736517600000, none, .reminder⟩ = true :=
  (detectConflict_matches_spec ⟨1736517600000, none, .reminder⟩
    ⟨1736517600000, none, .reminder⟩ (by decide) (by decide)).1.mpr rfl

/-- Concrete store for C2: one *completed* Span task covering day 0
(`[0, 86399999]`, ≈24h).  Completed Span tasks are invisible to the conflict
detector but counted by the hour-limit guard. -/
def exC2 : List StoredTask := [⟨0, some 86399999, .duration, some .completed⟩]

/-- **C2 counterexample.** The claim "the daily hour-limit rejection has no
override path" is false: with `overrideConflicts = true`, creating the Span
candidate `[0, 86399999]` against `exC2` passes validation (`.ok`), even
though day 0's summed Span hours `86399999/1800000 ≈ 48` exceed 24 — the
hour-limit check sits inside `if (!data.overrideConflicts)` and is skipped. -/
theorem createTask_override_skips_hour_limit :
    createTaskCheck exC2 0 (some 86399999) .duration true = .ok () ∧
    checkDailyHourLimit exC2 0 (some 86399999) .duration
      = some (0, 86399999 / 1800000) ∧ ((86399999 / 1800000 : ℚ) > 24) := by
  refine ⟨rfl, ?_, by norm_num⟩
  simp [checkDailyHourLimit, dailyHoursMap, fragments, hoursOnDay, dayIndex,
    insertAdd, maxDailyEntry, msPerDay, msPerHour, exC2, List.range_succ]
  norm_num

/-- **C2 amended.** When `overrideConflicts` is *not* set and the conflict
detector reports no conflict, a candidate whose application makes some
day's summed Span hours exceed 24 is rejected with the offending day and
its computed total, and that total is greater than 24. -/
theorem createTask_rejects_exceeding_day (existing : List StoredTask)
    (s : Int) (dl : Option Int) (ty : TaskType) (d : Int) (h : ℚ)
    (hnc : checkConflicts existing ⟨s, dl, ty⟩ = false)
    (hex : checkDailyHourLimit existing s dl ty = some (d, h)) :
    createTaskCheck existing s dl ty false = .error (.limitExceeded d h) ∧
      h > 24 := by
  refine ⟨by simp [createTaskCheck, hnc, hex], ?_⟩
  unfold checkDailyHourLimit at hex
  cases ty <;> cases dl <;> simp at hex
  exact hex.2.2 ▸ hex.1

/-- Witness for the amended C2 at a concrete input: against `exC2` (no
conflict, since the stored task is completed) the same candidate is rejected
with day 0 and ≈48 hours. -/
theorem createTask_rejects_exceeding_day_witness :
    createTaskCheck exC2 0 (some 86399999) .duration false
      = .error (.limitExceeded 0 (86399999 / 1800000)) ∧
      ((86399999 / 1800000 : ℚ) > 24) :=
  createTask_rejects_exceeding_day exC2 0 (some 86399999) .duration 0
    (86399999 / 1800000) (by decide)
    (by simp [checkDailyHourLimit, dailyHoursMap, fragments, hoursOnDay,
        dayIndex, insertAdd, maxDailyEntry, msPerDay, msPerHour, exC2,
        List.range_succ]; norm_num)

/-- Concrete task for C3: an Instant task created at 0 with start time 100,
reminders enabled, nothing fired yet. -/
def tC3 : Task :=
  ⟨0, 100, none, .reminder, none, .medium, true, [], false, none, none, 0⟩

/-- **C3 counterexample.** At `now = 10` the remaining percentage of `tC3` is
`90 > 75`, yet the scheduler does *not* stay silent: `calculateReminderQuarter`
returns quarter 100 (not `None`), the reminder fires, and `remindersSent`
grows from `[]` to `[100]`. -/
theorem reminderQuarter_beyond_75_fires_100 :
    ((((100 : ℚ) - 10) / (100 - 0)) * 100 > 75) ∧
    calculateReminderQuarter tC3 10 = some 100 ∧
    processReminderStep tC3 10 = (some 100, [100]) := by
  refine ⟨by norm_num, ?_, ?_⟩ <;>
    simp [processReminderStep, calculateReminderQuarter, quarterFor, tC3] <;>
    norm_num

/-- **C3 amended.** For every task with a reference time (start for Instant,
deadline for Span) created strictly before it, the due quarter is: 0 when
`referenceTime ≤ now`; 25 when `remaining% ≤ 25`; 50 when `≤ 50`; 75 when
`≤ 75`; and quarter **100** (not `None`) when `remaining% > 75` — so a fresh
task does fire a quarter-100 reminder rather than staying silent. -/
theorem calculateReminderQuarter_characterization (task : Task)
    (now ref : Int) (href : referenceTime task = some ref)
    (hcr : task.createdAt < ref) :
    calculateReminderQuarter task now =
      (if ref ≤ now then some 0
       else if ((ref - now : Int) : ℚ) / ((ref - task.createdAt : Int) : ℚ) * 100 ≤ 25 then some 25
       else if ((ref - now : Int) : ℚ) / ((ref - task.createdAt : Int) : ℚ) * 100 ≤ 50 then some 50
       else if ((ref - now : Int) : ℚ) / ((ref - task.createdAt : Int) : ℚ) * 100 ≤ 75 then some 75
       else some 100) := by
  have hrq : calculateReminderQuarter task now = quarterFor ref task.createdAt now := by
    unfold referenceTime at href
    unfold calculateReminderQuarter
    cases hty : task.type
    · simp only [hty] at href ⊢
      simp only [Option.some.injEq] at href
      rw [href]
    · simp only [hty] at href ⊢
      rw [href]
  rw [hrq]
  unfold quarterFor
  rcases le_or_lt (ref - now) 0 with hle | hlt
  · rw [if_pos hle, if_pos (by omega)]
  · have hnow : ¬ ref ≤ now := by omega
    have hT : ¬ ref - task.createdAt = 0 := by omega
    have hTpos : (0 : ℚ) < ((ref - task.createdAt : Int) : ℚ) := by
      exact_mod_cast (by omega : (0 : Int) < ref - task.createdAt)
    have hUpos : (0 : ℚ) < ((ref - now : Int) : ℚ) := by
      exact_mod_cast hlt
    have hppos : (0 : ℚ) < ((ref - now : Int) : ℚ) / ((ref - task.createdAt : Int) : ℚ) * 100 := by
      positivity
    rw [if_neg (by omega), if_neg hT, if_neg hnow]
    set p : ℚ := ((ref - now : Int) : ℚ) / ((ref - task.createdAt : Int) : ℚ) * 100 with hp
    by_cases h25 : p ≤ 25
    · rw [if_pos ⟨h25, hppos⟩, if_pos h25]
    · rw [if_neg (by tauto), if_neg h25]
      by_cases h50 : p ≤ 50
      · rw [if_pos ⟨h50, by linarith⟩, if_pos h50]
      · rw [if_neg (by tauto), if_neg h50]
        by_cases h75 : p ≤ 75
        · rw [if_pos ⟨h75, by linarith⟩, if_pos h75]
        · rw [if_neg (by tauto), if_neg h75, if_pos (by linarith)]

/-- Witness for the amended C3: for `tC3` at `now = 60` (40% remaining) the
theorem yields quarter 50. -/
theorem calculateReminderQuarter_characterization_witness :
    calculateReminderQuarter tC3 60 = some 50 := by
  rw [calculateReminderQuarter_characterization tC3 60 100 (by decide) (by decide)]
  norm_num [tC3]

/-- The recurrence engine always computes a next date: every frequency of
the closed enum returns `some` (the source's `default: return null` switch
arm is unreachable). -/
theorem calculateNextOccurrence_isSome (c : Int) (p : RecurrencePattern) :
    (calculateNextOccurrence c p).isSome := by
  unfold calculateNextOccurrence
  cases hf : p.frequency
  · simp
  · rcases p.daysOfWeek with _ | ds
    · simp
    · by_cases h : ds.length > 0 <;> simp only [h, if_true, if_false]
      · rcases hfind : (sortInts ds).find? (fun day => day > weekday c) <;> simp
      · simp
  · rcases p.dayOfMonth with _ | dom <;> simp
  · simp

/-- `calculateNextOccurrence` never reads `occurrences`. -/
theorem calcNext_occurrences_irrel (c : Int) (p : RecurrencePattern)
    (x : Option Int) :
    calculateNextOccurrence c { p with occurrences := x } =
      calculateNextOccurrence c p := by
  cases p; rfl

/-- Field values after advancing to the next occurrence. -/
theorem advanceOccurrence_fields (task : Task) (n : Int) :
    (advanceOccurrence task n).status = some .pending ∧
    (advanceOccurrence task n).remindersSent = [] ∧
    (advanceOccurrence task n).startDateTime = n ∧
    (advanceOccurrence task n).reminderEnabled = task.reminderEnabled := by
  unfold advanceOccurrence
  rcases task.deadline with _ | dl
  · exact ⟨rfl, rfl, rfl, rfl⟩
  · by_cases h : task.type = TaskType.duration <;> simp [h]

/-- Deadline after advancing a Span task: shifted by the original offset. -/
theorem advanceOccurrence_deadline_span (task : Task) (n dl : Int)
    (ht : task.type = TaskType.duration) (hd : task.deadline = some dl) :
    (advanceOccurrence task n).deadline =
      some (n + (dl - task.startDateTime)) := by
  unfold advanceOccurrence
  rw [hd]
  simp [ht]

/-- On a recurring task with a pattern, a pure "mark completed" update
routes into the recurring-completion block. -/
theorem updateTaskApply_complete_recurring (task : Task)
    (p : RecurrencePattern) (hrec : task.isRecurring = true)
    (hp : task.recurrencePattern = some p) :
    updateTaskApply task completeRequest = completeRecurring task p := by
  unfold updateTaskApply completeRequest applyFieldUpdates
  simp [hrec, hp]

/-- **C5.** For every recurring task with a well-formed pattern
(`occurrences ≥ 1` when tracked, and not both end conditions set),
completing the current occurrence terminates the series — `status =
Completed` with `reminderEnabled = false` — exactly when the pattern has
`occurrences = 1`, or the computed next occurrence exceeds `endDate`, or no
next occurrence can be computed. -/
theorem recurring_completion_termination (task : Task) (p : RecurrencePattern)
    (hrec : task.isRecurring = true)
    (hp : task.recurrencePattern = some p)
    (hocc : ∀ o, p.occurrences = some o → 1 ≤ o)
    (hone : p.occurrences = none ∨ p.endDate = none) :
    ((updateTaskApply task completeRequest).status = some .completed ↔
      (p.occurrences = some 1 ∨
       calculateNextOccurrence task.startDateTime p = none ∨
       (∃ n ed, calculateNextOccurrence task.startDateTime p = some n ∧
         p.endDate = some ed ∧ ed < n))) ∧
    ((updateTaskApply task completeRequest).status = some .completed →
      (updateTaskApply task completeRequest).reminderEnabled = false) := by
  rw [updateTaskApply_complete_recurring task p hrec hp]
  unfold completeRecurring
  rcases ho : p.occurrences with _ | occ
  · rcases hn : calculateNextOccurrence task.startDateTime p with _ | next
    · have hs := calculateNextOccurrence_isSome task.startDateTime p
      rw [hn] at hs
      simp at hs
    · rcases he : p.endDate with _ | ed
      · simp [ho, hn, he, (advanceOccurrence_fields task next).1]
      · by_cases hlt : next > ed
        · simp [ho, hn, he, hlt, terminateSeries]
        · simp [ho, hn, he, hlt, (advanceOccurrence_fields task next).1]
  · have he : p.endDate = none := by
      rcases hone with h | h
      · rw [ho] at h; cases h
      · exact h
    by_cases hle : occ ≤ 1
    · have hocc1 : occ = 1 := le_antisymm hle (hocc occ ho)
      subst hocc1
      simp [ho, hle, terminateSeries]
    · simp only [ho, hle, if_false]
      rw [calcNext_occurrences_irrel]
      rcases hn : calculateNextOccurrence task.startDateTime p with _ | next
      · have hs := calculateNextOccurrence_isSome task.startDateTime p
        rw [hn] at hs
        simp at hs
      · have hadv := fun (p2 : RecurrencePattern) =>
          (advanceOccurrence_fields { task with recurrencePattern := some p2 } next).1
        simp [ho, hn, he, hle, hadv]
        omega

/-- C5 pattern witness data: daily series tracked at its last occurrence. -/
def pC5 : RecurrencePattern := ⟨.daily, 1, none, some 1, none, none⟩

/-- C5 task witness data. -/
def tC5 : Task :=
  ⟨2, 0, none, .reminder, some .pending, .medium, true, [], true, some pC5, none, 0⟩

/-- Witness for C5: completing the last tracked occurrence (`occurrences = 1`)
terminates the series with reminders disabled. -/
theorem recurring_completion_termination_witness :
    (updateTaskApply tC5 completeRequest).status = some .completed ∧
    (updateTaskApply tC5 completeRequest).reminderEnabled = false := by
  have h := recurring_completion_termination tC5 pC5 rfl rfl
    (by intro o ho; injection ho with h; omega) (Or.inr rfl)
  have hterm := h.1.mpr (Or.inl rfl)
  exact ⟨hterm, h.2 hterm⟩

/-- **C6.** For every recurring task with a Daily pattern, `interval = 1` and
no end condition, completing the current occurrence advances `start` by
exactly one day, shifts a Span task's deadline by the same amount (preserving
the start→deadline offset), resets `status = Pending` and clears
`remindersFired`. -/
theorem daily_completion_advances (task : Task) (p : RecurrencePattern)
    (hrec : task.isRecurring = true) (hp : task.recurrencePattern = some p)
    (hfreq : p.frequency = .daily) (hint : p.interval = 1)
    (hend : p.endDate = none) (hocc : p.occurrences = none) :
    (updateTaskApply task completeRequest).startDateTime =
      task.startDateTime + msPerDay ∧
    (∀ dl, task.type = TaskType.duration → task.deadline = some dl →
      (updateTaskApply task completeRequest).deadline = some (dl + msPerDay)) ∧
    (updateTaskApply task completeRequest).status = some .pending ∧
    (updateTaskApply task completeRequest).remindersSent = [] := by
  rw [updateTaskApply_complete_recurring task p hrec hp]
  have hn : calculateNextOccurrence task.startDateTime p =
      some (task.startDateTime + msPerDay) := by
    unfold calculateNextOccurrence
    rw [hfreq, hint]
    simp
  unfold completeRecurring
  rw [hocc, hn, hend]
  obtain ⟨hst, hrem, hstart, _⟩ :=
    advanceOccurrence_fields task (task.startDateTime + msPerDay)
  refine ⟨hstart, ?_, hst, hrem⟩
  intro dl ht hd
  rw [advanceOccurrence_deadline_span task _ dl ht hd]
  congr 1
  ring

/-- C6 pattern witness data: daily, interval 1, no end condition. -/
def pC6 : RecurrencePattern := ⟨.daily, 1, none, none, none, none⟩

/-- C6 task witness data: a Span task `[0, 3600000]` with a fired reminder. -/
def tC6 : Task :=
  ⟨3, 0, some 3600000, .duration, some .pending, .high, true, [25], true,
    some pC6, none, 0⟩

/-- Witness for C6: the concrete Span task advances to `[86400000,
90000000]`, resets to Pending, and its fired-reminder set clears. -/
theorem daily_completion_advances_witness :
    (updateTaskApply tC6 completeRequest).startDateTime = 0 + msPerDay ∧
    (updateTaskApply tC6 completeRequest).deadline = some (3600000 + msPerDay) ∧
    (updateTaskApply tC6 completeRequest).status = some .pending ∧
    (updateTaskApply tC6 completeRequest).remindersSent = [] := by
  have h := daily_completion_advances tC6 pC6 rfl rfl rfl rfl rfl rfl
  exact ⟨h.1, h.2.1 3600000 rfl rfl, h.2.2⟩

/-- Every total emitted by the fill-and-cap loop is at most 24. -/
theorem capCarryAux_le (l : List ℚ) :
    ∀ (c : ℚ), ∀ x ∈ (capCarryAux l c).1, x ≤ 24 := by
  induction l with
  | nil => intro c x hx; simp [capCarryAux] at hx
  | cons d rest ih =>
    intro c x hx
    simp only [capCarryAux] at hx
    split at hx <;> split at hx <;>
      simp only [List.mem_cons] at hx <;>
      rcases hx with h | h
    all_goals try exact ih _ x h
    all_goals subst h
    all_goals first
      | exact le_refl 24
      | (rename_i h24; exact le_of_not_lt h24)

/-- Every synthetic extra day is at most 24 hours. -/
theorem extraDays_le (n : Nat) :
    ∀ (c : ℚ), ∀ x ∈ extraDays n c, x ≤ 24 := by
  induction n with
  | zero => intro c x hx; simp [extraDays] at hx
  | succ n ih =>
    intro c x hx
    simp only [extraDays] at hx
    split at hx
    · rcases List.mem_cons.mp hx with h | h
      · exact h ▸ min_le_right c 24
      · exact ih _ x h
    · simp at hx

/-- **C7.** For every task set and date range, every daily total in the
workload summary — the in-range days after the left-to-right cap-and-carry
pass, and any synthetic extra days appended past the range end — is at most
24 hours. -/
theorem calculateWorkload_cap (tasks : List (Int × Int))
    (startDate endDate : Int) :
    ∀ x ∈ calculateWorkload tasks startDate endDate, x ≤ 24 := by
  intro x hx
  unfold calculateWorkload at hx
  rcases List.mem_append.mp hx with h | h
  · exact capCarryAux_le _ _ x h
  · exact extraDays_le _ _ x h

/-- Witness for C7 at a concrete input: an empty task set over the
single-day range `[0, 0]` yields the daily total 0, which the theorem bounds
by 24. -/
theorem calculateWorkload_cap_witness :
    (0 : ℚ) ∈ calculateWorkload [] 0 0 ∧ (0 : ℚ) ≤ 24 := by
  have hmem : (0 : ℚ) ∈ calculateWorkload [] 0 0 := by
    norm_num [calculateWorkload, rangeDays, dayIndex, capCarryAux, extraDays,
      msPerDay]
  exact ⟨hmem, calculateWorkload_cap [] 0 0 0 hmem⟩

/-- The gap loop never grows past three suggestions (it breaks immediately
after the third). -/
theorem gapLoop_length (dur : Int) (bs : List (Int × Int)) :
    ∀ (cur : Int) (acc : List (Int × Int)), acc.length < 3 →
      ((gapLoop dur bs cur acc).1).length ≤ 3 := by
  induction bs with
  | nil => intro cur acc h; simp only [gapLoop]; omega
  | cons b rest ih =>
    intro cur acc h
    simp only [gapLoop]
    split
    · split
      · simp only [List.length_append, List.length_singleton]
        omega
      · apply ih
        next h3 => simp only [List.length_append, List.length_singleton] at h3 ⊢; omega
    · exact ih _ _ h

/-- Busy blocks for the C8 counterexample: one block filling days 0–10 and
one on day 20, both far past the 7-day horizon's end. -/
def exC8 : List TimeSlot :=
  [⟨0, some (10 * msPerDay), .duration⟩,
   ⟨20 * msPerDay, some (21 * msPerDay), .duration⟩]

/-- **C8 counterexample.** The claim "every returned suggestion lies within
the 7-day search horizon" is false: with the anchor at 0 and a one-hour
duration, the finder returns the gap suggestion starting at day 10
(`864000000`), strictly beyond the horizon end `anchor + 7 days`
(`604800000`) — the gap loop never checks the horizon. -/
theorem findFreeTimeSlots_beyond_horizon :
    findFreeTimeSlots exC8 msPerHour 0 0 =
      [(10 * msPerDay, 10 * msPerDay + msPerHour)] ∧
    max 0 0 + 7 * msPerDay < 10 * msPerDay := by
  constructor
  · decide
  · decide

/-- **C8 amended.** The free-slot finder returns at most 3 suggestions (for
every set of busy intervals, duration and anchor); suggestions are not
confined to the 7-day horizon — only the trailing "after your scheduled
tasks" suggestion is horizon-checked. -/
theorem findFreeTimeSlots_at_most_three (existingTasks : List TimeSlot)
    (taskDuration originalStart now : Int) :
    (findFreeTimeSlots existingTasks taskDuration originalStart now).length ≤ 3 := by
  unfold findFreeTimeSlots
  have h0 := gapLoop_length taskDuration
    (sortBlocks (existingTasks.map fun t => (t.startDateTime, endOf t)))
    (max originalStart now) [] (by simp)
  dsimp only
  split
  · rename_i hc
    split
    · rename_i hz
      simp at hz
    · simp only [List.length_append, List.length_singleton]
      omega
  · split
    · cases hl : (sortBlocks (existingTasks.map fun t =>
        (t.startDateTime, endOf t))).getLast? <;> simp [hl]
    · exact h0

/-- **C9.** For every fixed `now`, a Completed task scores strictly below
every non-Completed task, whatever the priorities, deadlines and other
fields: the Completed score is overridden to −1000 and every non-Completed
score is at least 10. -/
theorem completed_scores_below (a b : Task) (now : Int)
    (hA : a.status = some TaskStatus.completed)
    (hB : b.status ≠ some TaskStatus.completed) :
    calculateDynamicPriority a now < calculateDynamicPriority b now ∧
    10 ≤ calculateDynamicPriority b now := by
  have hA' : calculateDynamicPriority a now = -1000 := by
    unfold calculateDynamicPriority
    simp [hA]
  have hbase : 1 ≤ priorityScores b.priority := by
    cases b.priority <;> simp [priorityScores]
  have hBge : 10 ≤ calculateDynamicPriority b now := by
    unfold calculateDynamicPriority
    simp only [hB, if_false]
    rcases hd : b.deadline with _ | dl <;> dsimp only <;>
      split_ifs <;> omega
  exact ⟨by omega, hBge⟩

/-- Witness data for C9: a Completed High task with an imminent deadline. -/
def tC9a : Task :=
  ⟨4, 0, some 1000, .duration, some .completed, .high, false, [], false,
    none, none, 0⟩

/-- Witness data for C9: a Pending Low task with no deadline. -/
def tC9b : Task :=
  ⟨5, 0, none, .reminder, some .pending, .low, false, [], false, none,
    none, 0⟩

/-- Witness for C9 at concrete inputs: the completed high-priority task
scores below the pending low-priority one at `now = 500`. -/
theorem completed_scores_below_witness :
    calculateDynamicPriority tC9a 500 < calculateDynamicPriority tC9b 500 ∧
    10 ≤ calculateDynamicPriority tC9b 500 :=
  completed_scores_below tC9a tC9b 500 rfl (by decide)

/-- `applyFieldUpdates` never touches `isRecurring`. -/
theorem applyFieldUpdates_isRecurring (task : Task) (data : UpdateTaskDto) :
    (applyFieldUpdates task data).isRecurring = task.isRecurring := by
  obtain ⟨dp, ds, dd, dst, dr⟩ := data
  unfold applyFieldUpdates
  rcases dp <;> rcases ds <;> rcases dd <;> rcases dr <;> rfl

/-- **C10.** For every non-recurring task, an update that sets
`status = Completed` leaves the task with `reminderEnabled = false`, even if
the same request asked for `reminderEnabled = true` — the completion
handling overrides the flag after the field updates are applied. -/
theorem completion_overrides_reminder_flag (task : Task)
    (data : UpdateTaskDto) (hnr : task.isRecurring = false)
    (hst : data.status = some TaskStatus.completed) :
    (updateTaskApply task data).reminderEnabled = false := by
  unfold updateTaskApply
  rw [hst]
  dsimp only
  rw [if_pos rfl, applyFieldUpdates_isRecurring task data, hnr]
  rfl

/-- Witness data for C10: a non-recurring task with reminders on. -/
def tC10 : Task :=
  ⟨6, 0, some 1000, .duration, some .pending, .medium, true, [], false,
    none, none, 0⟩

/-- Witness data for C10: an update completing the task while *asking* for
`reminderEnabled = true`. -/
def dC10 : UpdateTaskDto :=
  ⟨none, none, none, some .completed, some true⟩

/-- Witness for C10: the concrete completing update leaves reminders off
despite requesting them on. -/
theorem completion_overrides_reminder_flag_witness :
    (updateTaskApply tC10 dC10).reminderEnabled = false :=
  completion_overrides_reminder_flag tC10 dC10 rfl rfl

/-- Concrete task for C4: id 1, no parent yet. -/
def tC4 : Task :=
  ⟨1, 0, none, .reminder, none, .medium, false, [], false, none, none, 0⟩

/-- **C4 failing input.** Assigning `parentTaskId = P` with `P = T` itself is
*not* rejected: `isSubtaskOf` only inspects the strict ancestors of `P`
(`currentTask.parentTaskId` comparisons), never `P`'s own id, so on a store
where `T` has no parent the walk returns `false` and `updateTask` happily
sets `T.parentTaskId = T`, creating a depth-1 parent cycle. -/
theorem selfParent_assignment_accepted :
    isSubtaskOf [tC4] 1 1 = false ∧
    assignParent [tC4] tC4 1 = .ok { tC4 with parentTaskId := some 1 } ∧
    ({ tC4 with parentTaskId := some 1 } : Task).parentTaskId = some tC4.id :=
  ⟨rfl, rfl, rfl⟩

end SmartTask
